import Mathlib

/-!
Shallow embedding of the streaming speech-analysis core of the repository:
the prosody analyzer (src/src/lib/prosodyAnalyzer.ts), the fluency
calculator (src/src/lib/fluencyCalculator.ts), and the result assembly and
recognition error handling of the useAdvancedSpeechAnalysis hook.
JavaScript numbers are modelled as exact rationals.  Math.sqrt, whose exact
value leaves the rationals, is threaded through as an explicit function
parameter sqrtFn; no statement proved here depends on its values except
through the rhythmConsistency field, which the claims treat as opaque.
-/

namespace Speech

/-- Audio frame as produced by the feature extractor, with the fields read
by the prosody analyzer. -/
structure Frame where
  timestamp : ℚ
  rms : ℚ
  pitch : ℚ
  isSilent : Bool
deriving DecidableEq

/-- Aggregate output of the audio feature extractor, as consumed by
analyzeProsody and calculateFluency.  The extractor itself is not among the
analyzed sources; only the shape of its output matters to the claims, so it
is an input of the model.  The pitchRange object is flattened into the two
fields pitchRangeMin and pitchRangeMax. -/
structure AudioAnalysisResult where
  frames : List Frame
  pitchRangeMin : ℚ
  pitchRangeMax : ℚ
  averagePitch : ℚ
  totalDuration : ℚ
  silenceRatio : ℚ
deriving DecidableEq

/-- Direction of an intonation event. -/
inductive IntonationType where
  | rising
  | falling
  | level
deriving DecidableEq

/-- Qualitative speaking rate label. -/
inductive SpeakingRate where
  | slow
  | normal
  | fast
deriving DecidableEq

/-- IntonationEvent of prosodyAnalyzer.ts (the interface comment there
declares magnitude 0-100). -/
structure IntonationEvent where
  timestamp : ℚ
  type : IntonationType
  magnitude : ℚ
deriving DecidableEq

/-- StressEvent of prosodyAnalyzer.ts. -/
structure StressEvent where
  timestamp : ℚ
  intensity : ℚ
deriving DecidableEq

/-- ProsodyMetrics of prosodyAnalyzer.ts. -/
structure ProsodyMetrics where
  pitchVariation : ℚ
  stressEventCount : ℕ
  averagePauseDuration : ℚ
  pauseCount : ℕ
  longPauseCount : ℕ
  speakingRate : SpeakingRate
  intonationPatterns : List IntonationEvent
  rhythmConsistency : ℚ
deriving DecidableEq

/-- Internal pause record of analyzeProsody; the source field named end is
renamed endTime because end is a Lean keyword. -/
structure Pause where
  start : ℚ
  endTime : ℚ
  duration : ℚ
deriving DecidableEq

def PAUSE_THRESHOLD_MS : ℚ := 500

def LONG_PAUSE_THRESHOLD_MS : ℚ := 1500

/-- One step of the pause-detection loop of analyzeProsody (lines 48-62):
the accumulator is the list of pauses pushed so far together with the
pauseStart variable. -/
def pauseStep (acc : List Pause × Option ℚ) (f : Frame) : List Pause × Option ℚ :=
  if f.isSilent then
    match acc.2 with
    | none => (acc.1, some f.timestamp)
    | some s => (acc.1, some s)
  else
    match acc.2 with
    | none => acc
    | some s =>
      let d := f.timestamp - s
      (if PAUSE_THRESHOLD_MS ≤ d then acc.1 ++ [⟨s, f.timestamp, d⟩] else acc.1, none)

/-- The pause-detection loop over all frames. -/
def pauseScan (frames : List Frame) : List Pause × Option ℚ :=
  frames.foldl pauseStep ([], none)

/-- Pause detection of analyzeProsody, including the trailing-pause
handling of lines 64-71: a run still open at the end of the recording is
measured up to the timestamp of the last frame. -/
def detectPauses (frames : List Frame) : List Pause :=
  let scanned := pauseScan frames
  match scanned.2, frames.getLast? with
  | some s, some last =>
    if PAUSE_THRESHOLD_MS ≤ last.timestamp - s then
      scanned.1 ++ [⟨s, last.timestamp, last.timestamp - s⟩]
    else scanned.1
  | _, _ => scanned.1

/-- Stress-event loop of analyzeProsody (lines 83-97): a frame strictly
between two neighbours is a stress event when it is a local rms maximum,
non-silent, and its rms exceeds 1.5 times the average rms. -/
def stressEventsAux (avgRms : ℚ) : List Frame → List StressEvent
  | p :: c :: n :: rest =>
    (if !c.isSilent && decide (p.rms < c.rms) && decide (n.rms < c.rms)
        && decide (avgRms * 1.5 < c.rms) then
      [⟨c.timestamp, min 100 (c.rms / avgRms * 50)⟩]
    else []) ++ stressEventsAux avgRms (c :: n :: rest)
  | _ => []

/-- Indices visited by the intonation loop of analyzeProsody (line 103):
for i starting at the window size 5 and stepping by 5 while i is below the
number of frames. -/
def intonationIndices (n : ℕ) : List ℕ :=
  (List.range n).filter (fun i => decide (i % 5 = 0 ∧ 5 ≤ i))

/-- Body of the intonation loop at index i (lines 104-125): take the 5
frames before index i, drop silent ones, require at least 3 left, compare
first and last pitch, and classify the relative change; the emitted event
carries the timestamp of the frame at index i. -/
def intonationEventAt (frames : List Frame) (i : ℕ) : Option IntonationEvent :=
  match (frames.drop i).head? with
  | none => none
  | some fi =>
    match ((frames.drop (i - 5)).take 5).filter (fun f => !f.isSilent) with
    | w0 :: w1 :: w2 :: ws =>
      let startPitch := w0.pitch
      let endPitch := (List.getLast (w0 :: w1 :: w2 :: ws) (List.cons_ne_nil _ _)).pitch
      let diff := endPitch - startPitch
      let relativeDiff := if 0 < startPitch then diff / startPitch * 100 else 0
      let t : IntonationType :=
        if 10 < relativeDiff then IntonationType.rising
        else if relativeDiff < -10 then IntonationType.falling
        else IntonationType.level
      some ⟨fi.timestamp, t, |relativeDiff|⟩
    | _ => none

/-- The intonation patterns collected by analyzeProsody. -/
def intonationEvents (frames : List Frame) : List IntonationEvent :=
  (intonationIndices frames.length).filterMap (intonationEventAt frames)

/-- One step of the non-silent segment scan of analyzeProsody
(lines 132-141). -/
def segmentStep (acc : List ℚ × Option ℚ) (f : Frame) : List ℚ × Option ℚ :=
  if !f.isSilent then
    match acc.2 with
    | none => (acc.1, some f.timestamp)
    | some _ => acc
  else
    match acc.2 with
    | none => acc
    | some s => (acc.1 ++ [f.timestamp - s], none)

/-- Durations of maximal non-silent runs, including the trailing segment
(lines 143-146). -/
def detectSegments (frames : List Frame) : List ℚ :=
  let scanned := frames.foldl segmentStep ([], none)
  match scanned.2, frames.getLast? with
  | some s, some last => scanned.1 ++ [last.timestamp - s]
  | _, _ => scanned.1

/-- Rhythm consistency (lines 148-155): defaults to 50 with fewer than two
segments, otherwise maps the coefficient of variation through
100 - cv * 100 clamped to the range 0 to 100.  Math.sqrt is the abstracted
parameter sqrtFn. -/
def rhythmConsistencyOf (sqrtFn : ℚ → ℚ) (segments : List ℚ) : ℚ :=
  if 1 < segments.length then
    let avgSegment := segments.sum / (segments.length : ℚ)
    let variance := (segments.map (fun s => (s - avgSegment) ^ 2)).sum / (segments.length : ℚ)
    let stdDev := sqrtFn variance
    let cv := if 0 < avgSegment then stdDev / avgSegment else 0
    max 0 (min 100 (100 - cv * 100))
  else 50

/-- createEmptyProsodyMetrics of prosodyAnalyzer.ts. -/
def createEmptyProsodyMetrics : ProsodyMetrics :=
  { pitchVariation := 0
    stressEventCount := 0
    averagePauseDuration := 0
    pauseCount := 0
    longPauseCount := 0
    speakingRate := SpeakingRate.normal
    intonationPatterns := []
    rhythmConsistency := 50 }

/-- analyzeProsody of prosodyAnalyzer.ts. -/
def analyzeProsody (sqrtFn : ℚ → ℚ) (audioResult : AudioAnalysisResult) : ProsodyMetrics :=
  if audioResult.frames.length = 0 then createEmptyProsodyMetrics
  else
    let frames := audioResult.frames
    let pitchDiff := audioResult.pitchRangeMax - audioResult.pitchRangeMin
    let pitchVariation :=
      min 100 (if 0 < audioResult.averagePitch then pitchDiff / audioResult.averagePitch * 100 else 0)
    let pauses := detectPauses frames
    let pauseCount := pauses.length
    let longPauseCount := (pauses.filter (fun p => decide (LONG_PAUSE_THRESHOLD_MS ≤ p.duration))).length
    let averagePauseDuration :=
      if 0 < pauseCount then (pauses.map Pause.duration).sum / (pauseCount : ℚ) else 0
    let avgRms := (frames.map Frame.rms).sum / (frames.length : ℚ)
    let stressEvents := stressEventsAux avgRms frames
    let intonationPatterns := intonationEvents frames
    let segments := detectSegments frames
    let rhythmConsistency := rhythmConsistencyOf sqrtFn segments
    let nonSilentDuration : ℚ := ((frames.filter (fun f => !f.isSilent)).length : ℚ) * 100
    let speakingRatio :=
      if 0 < audioResult.totalDuration then nonSilentDuration / audioResult.totalDuration else 0
    let speakingRate : SpeakingRate :=
      if speakingRatio < 0.5 then SpeakingRate.slow
      else if 0.8 < speakingRatio then SpeakingRate.fast
      else SpeakingRate.normal
    { pitchVariation
      stressEventCount := stressEvents.length
      averagePauseDuration
      pauseCount
      longPauseCount
      speakingRate
      intonationPatterns
      rhythmConsistency }

/-- WordConfidence entry of the word confidence tracker, with the fields
read by the fluency calculator and the orchestrator. -/
structure WordConfidence where
  word : String
  confidence : ℚ
  isFiller : Bool
  isRepeat : Bool
deriving DecidableEq

/-- FluencyMetrics of fluencyCalculator.ts. -/
structure FluencyMetrics where
  wordsPerMinute : ℤ
  pauseCount : ℕ
  longPauseCount : ℕ
  fillerCount : ℕ
  fillerRatio : ℚ
  repetitionCount : ℕ
  hesitationScore : ℚ
  speechToSilenceRatio : ℚ
  overallFluencyScore : ℚ
deriving DecidableEq

/-- Overall fluency score computation of calculateFluency (lines 55-79):
start from 100, apply the words-per-minute penalty, the filler penalty, the
long-pause penalty and the silence penalty, average with the hesitation
score, and clamp to the range 0 to 100. -/
def overallFluencyScoreOf (wordsPerMinute : ℤ) (fillerRatio : ℚ) (longPauseCount : ℕ)
    (speechToSilenceRatio : ℚ) (hesitationScore : ℚ) : ℚ :=
  let base : ℚ := 100
  let afterWpm :=
    if wordsPerMinute < 100 then base - (100 - (wordsPerMinute : ℚ)) * 0.3
    else if 200 < wordsPerMinute then base - ((wordsPerMinute : ℚ) - 200) * 0.2
    else base
  let afterFiller := afterWpm - fillerRatio * 30
  let afterPause := afterFiller - (longPauseCount : ℚ) * 5
  let afterSilence :=
    if speechToSilenceRatio < 0.4 then afterPause - (0.4 - speechToSilenceRatio) * 50
    else afterPause
  let averaged := (afterSilence + hesitationScore) / 2
  max 0 (min 100 averaged)

/-- calculateFluency of fluencyCalculator.ts. -/
def calculateFluency (words : List WordConfidence) (audioResult : AudioAnalysisResult)
    (prosody : ProsodyMetrics) (durationMs : ℚ) : FluencyMetrics :=
  let totalWords := words.length
  let durationMinutes := durationMs / 60000
  let wordsPerMinute : ℤ :=
    if 0 < durationMinutes then round ((totalWords : ℚ) / durationMinutes) else 0
  let pauseCount := prosody.pauseCount
  let longPauseCount := prosody.longPauseCount
  let fillers := words.filter (fun w => w.isFiller)
  let fillerCount := fillers.length
  let fillerRatio : ℚ := if 0 < totalWords then (fillerCount : ℚ) / (totalWords : ℚ) else 0
  let repetitions := words.filter (fun w => w.isRepeat)
  let repetitionCount := repetitions.length
  let hesitationScore : ℚ :=
    max 0 (min 100 (100 - (pauseCount : ℚ) * 5 - (fillerCount : ℚ) * 3
      - (repetitionCount : ℚ) * 4 - (longPauseCount : ℚ) * 8))
  let speechToSilenceRatio := 1 - AudioAnalysisResult.silenceRatio audioResult
  let overallFluencyScore :=
    overallFluencyScoreOf wordsPerMinute fillerRatio longPauseCount speechToSilenceRatio hesitationScore
  { wordsPerMinute
    pauseCount
    longPauseCount
    fillerCount
    fillerRatio
    repetitionCount
    hesitationScore
    speechToSilenceRatio
    overallFluencyScore }

/-- createEmptyFluencyMetrics of fluencyCalculator.ts. -/
def createEmptyFluencyMetrics : FluencyMetrics :=
  { wordsPerMinute := 0
    pauseCount := 0
    longPauseCount := 0
    fillerCount := 0
    fillerRatio := 0
    repetitionCount := 0
    hesitationScore := 50
    speechToSilenceRatio := 0
    overallFluencyScore := 0 }

/-- SpeechAnalysisResult of the useAdvancedSpeechAnalysis hook.  The
rounded clarity score is an integer. -/
structure SpeechAnalysisResult where
  rawTranscript : String
  cleanedTranscript : String
  wordConfidences : List WordConfidence
  fluencyMetrics : FluencyMetrics
  prosodyMetrics : ProsodyMetrics
  audioAnalysis : AudioAnalysisResult
  durationMs : ℚ
  overallClarityScore : ℤ
deriving DecidableEq

/-- Modelled from the spec: AudioFeatureExtractor.createEmptyResult, whose
source file audioFeatureExtractor.ts is not among the analyzed sources; the
spec describes the empty extractor output as a report with no frames and
zeroed aggregates. -/
def createEmptyAudioResult : AudioAnalysisResult :=
  { frames := []
    pitchRangeMin := 0
    pitchRangeMax := 0
    averagePitch := 0
    totalDuration := 0
    silenceRatio := 0 }

/-- Executable model of the trim method of JavaScript strings (and of
String.trim): remove leading and trailing whitespace. -/
def jsTrim (s : String) : String :=
  String.mk (((s.data.dropWhile Char.isWhitespace).reverse.dropWhile Char.isWhitespace).reverse)

/-- Whitespace collapsing of the regular expression replace in the hook
(line 336): every maximal run of whitespace becomes one space.  The Bool
argument records whether the previous kept character position was inside a
whitespace run. -/
def collapseWhitespace : Bool → List Char → List Char
  | _, [] => []
  | prevWs, c :: rest =>
    if c.isWhitespace then
      if prevWs then collapseWhitespace true rest
      else ' ' :: collapseWhitespace true rest
    else c :: collapseWhitespace false rest

/-- The cleaned-transcript normalization of the hook (lines 332-337 suffix):
collapse whitespace runs to single spaces, then trim. -/
def normalizeWhitespace (s : String) : String :=
  jsTrim (String.mk (collapseWhitespace false s.data))

/-- Average word confidence of the hook (lines 340-342), with the division
guarded by a length check. -/
def avgConfidence (wordConfidences : List WordConfidence) : ℚ :=
  if 0 < wordConfidences.length then
    (wordConfidences.map WordConfidence.confidence).sum / (wordConfidences.length : ℚ)
  else 0

/-- createEmptySpeechAnalysisResult of the hook. -/
def createEmptySpeechAnalysisResult : SpeechAnalysisResult :=
  { rawTranscript := ""
    cleanedTranscript := ""
    wordConfidences := []
    fluencyMetrics := createEmptyFluencyMetrics
    prosodyMetrics := createEmptyProsodyMetrics
    audioAnalysis := createEmptyAudioResult
    durationMs := 0
    overallClarityScore := 0 }

/-- stop of the useAdvancedSpeechAnalysis hook (lines 290-361), as a pure
function of the data the environment supplies at the moment stop runs: the
finished extractor output, the accumulated final transcript, the current
interim transcript, the word-confidence lookup (the tracker when present,
otherwise the static fallback of line 318), and the elapsed wall-clock
duration.  The JavaScript expression a.trim() or-else b.trim() picks the
trimmed final text unless it is empty, in which case it falls back to the
trimmed interim text. -/
def stop (sqrtFn : ℚ → ℚ) (audioAnalysis : AudioAnalysisResult)
    (finalTranscript interimTranscript : String)
    (getWordConfidences : String → List WordConfidence) (durationMs : ℚ) :
    Option SpeechAnalysisResult :=
  let prosodyMetrics := analyzeProsody sqrtFn audioAnalysis
  let rawTranscript :=
    if jsTrim finalTranscript ≠ "" then jsTrim finalTranscript else jsTrim interimTranscript
  if rawTranscript = "" then none
  else
    let wordConfidences := getWordConfidences rawTranscript
    let fluencyMetrics := calculateFluency wordConfidences audioAnalysis prosodyMetrics durationMs
    let cleanedTranscript :=
      normalizeWhitespace (String.intercalate " "
        (List.map WordConfidence.word
          (wordConfidences.filter (fun w => !w.isFiller && !w.isRepeat))))
    let overallClarityScore :=
      round ( avgConfidence wordConfidences * 0.4
        + FluencyMetrics.overallFluencyScore fluencyMetrics * 0.3
        + ProsodyMetrics.pitchVariation prosodyMetrics * 0.15
        + ProsodyMetrics.rhythmConsistency prosodyMetrics * 0.15)
    some { rawTranscript
           cleanedTranscript
           wordConfidences
           fluencyMetrics
           prosodyMetrics
           audioAnalysis
           durationMs
           overallClarityScore }

/-- State of the hook touched by the recognition error handler. -/
structure RecognitionState where
  isAnalyzing : Bool
  error : Option String
deriving DecidableEq

/-- Recognition error event: the error field is the error code string. -/
structure RecognitionErrorEvent where
  error : String
deriving DecidableEq

/-- recognition.onerror of the hook (lines 260-266): codes no-speech and
aborted are ignored; every other code builds an Error whose message is
recorded in the error state and delivered to the onError callback.  The
second component is the message passed to the callback, none when the
callback does not fire. -/
def handleRecognitionError (state : RecognitionState) (event : RecognitionErrorEvent) :
    RecognitionState × Option String :=
  if event.error ≠ "no-speech" ∧ event.error ≠ "aborted" then
    let errMsg := "Speech recognition error: " ++ event.error
    ({ state with error := some errMsg }, some errMsg)
  else (state, none)

/-- Non-silent frame at a given timestamp, used for concrete instances. -/
def nsFrame (t : ℚ) : Frame :=
  { timestamp := t, rms := 1, pitch := 100, isSilent := false }

/-- Silent frame at a given timestamp, used for concrete instances. -/
def silFrame (t : ℚ) : Frame :=
  { timestamp := t, rms := 0, pitch := 0, isSilent := true }

/-- Extractor output holding the given frames, with neutral aggregates. -/
def mkAudioResult (fs : List Frame) : AudioAnalysisResult :=
  { frames := fs
    pitchRangeMin := 0
    pitchRangeMax := 0
    averagePitch := 0
    totalDuration := 0
    silenceRatio := 0 }

/-- Trivial stand-in for Math.sqrt used in concrete instances whose control
flow never consults it (or consults it only at variance 0). -/
def sqZero : ℚ → ℚ := fun _ => 0

/-- Run of k silent frames at the 100 ms cadence starting at t0. -/
def silentRun (t0 : ℚ) (k : ℕ) : List Frame :=
  (List.range k).map (fun (j : ℕ) => silFrame (t0 + 100 * (j : ℚ)))

/-- Recording at the 100 ms cadence with an interior silent run of 5 frames
(500 ms of recorded silence, measured as 500 ms to the next non-silent
frame). -/
def c4Interior : List Frame :=
  [nsFrame 0, silFrame 100, silFrame 200, silFrame 300, silFrame 400, silFrame 500, nsFrame 600]

/-- Recording at the 100 ms cadence with a trailing silent run of the same
5 frames (measured as 400 ms to the last frame). -/
def c4Trailing : List Frame :=
  [nsFrame 0, silFrame 100, silFrame 200, silFrame 300, silFrame 400, silFrame 500]

/-- Recording whose first intonation window rises from pitch 100 to pitch
300, a relative change of 200 percent. -/
def c5Frames : List Frame :=
  [{ timestamp := 0, rms := 1, pitch := 100, isSilent := false },
   { timestamp := 100, rms := 1, pitch := 100, isSilent := false },
   { timestamp := 200, rms := 1, pitch := 100, isSilent := false },
   { timestamp := 300, rms := 1, pitch := 100, isSilent := false },
   { timestamp := 400, rms := 1, pitch := 300, isSilent := false },
   { timestamp := 500, rms := 1, pitch := 100, isSilent := false }]

/-- Word with a choice of filler flag, used for concrete instances. -/
def mkWord (fil : Bool) : WordConfidence :=
  { word := "w", confidence := 90, isFiller := fil, isRepeat := false }

/-- Two words, one flagged as a filler. -/
def cw1 : List WordConfidence := [mkWord true, mkWord false]

/-- Two words, both flagged as fillers. -/
def cw2 : List WordConfidence := [mkWord true, mkWord true]

/-- Prosody input with 20 pauses of which 20 are long, driving both the
hesitation score and the running fluency score below the lower clamp. -/
def prosody20 : ProsodyMetrics :=
  { pitchVariation := 0
    stressEventCount := 0
    averagePauseDuration := 0
    pauseCount := 20
    longPauseCount := 20
    speakingRate := SpeakingRate.normal
    intonationPatterns := []
    rhythmConsistency := 50 }

/-- Word-confidence lookup that annotates the whole transcript as a single
confident word. -/
def gwcEx : String → List WordConfidence :=
  fun s => [{ word := s, confidence := 90, isFiller := false, isRepeat := false }]

/-- Word-confidence lookup returning no words. -/
def gwcEmpty : String → List WordConfidence := fun _ => []

/-! Helper lemmas about the fields of analyzeProsody on a non-empty frame
list. -/

lemma analyzeProsody_pauseCount (sqrtFn : ℚ → ℚ) (a : AudioAnalysisResult)
    (h : a.frames.length ≠ 0) :
    (analyzeProsody sqrtFn a).pauseCount = (detectPauses a.frames).length := by
  rw [analyzeProsody, if_neg h]

lemma analyzeProsody_longPauseCount (sqrtFn : ℚ → ℚ) (a : AudioAnalysisResult)
    (h : a.frames.length ≠ 0) :
    (analyzeProsody sqrtFn a).longPauseCount =
      ((detectPauses a.frames).filter
        (fun p => decide (LONG_PAUSE_THRESHOLD_MS ≤ p.duration))).length := by
  rw [analyzeProsody, if_neg h]

lemma analyzeProsody_intonationPatterns (sqrtFn : ℚ → ℚ) (a : AudioAnalysisResult)
    (h : a.frames.length ≠ 0) :
    (analyzeProsody sqrtFn a).intonationPatterns = intonationEvents a.frames := by
  rw [analyzeProsody, if_neg h]

/-- Claim C8: for every frame sequence, the ProsodyMetrics returned by
analyzeProsody satisfies longPauseCount less than or equal to pauseCount:
the long pauses are the subset of the detected pauses whose duration
reaches 1500 ms. -/
theorem analyzeProsody_longPauseCount_le_pauseCount (sqrtFn : ℚ → ℚ)
    (a : AudioAnalysisResult) :
    (analyzeProsody sqrtFn a).longPauseCount ≤ (analyzeProsody sqrtFn a).pauseCount := by
  by_cases h : a.frames.length = 0
  · rw [analyzeProsody, if_pos h]
    simp [createEmptyProsodyMetrics]
  · rw [analyzeProsody_pauseCount sqrtFn a h, analyzeProsody_longPauseCount sqrtFn a h]
    exact List.length_filter_le _ _

/-- Claim C10: calculateFluency is total on degenerate inputs: an empty
word list yields fillerRatio 0, fillerCount 0 and repetitionCount 0 (the
division is guarded), and a zero duration yields wordsPerMinute 0; every
numeric field is a well-defined rational for every input. -/
theorem calculateFluency_degenerate_inputs (audioResult : AudioAnalysisResult)
    (prosody : ProsodyMetrics) (durationMs : ℚ) (words : List WordConfidence) :
    FluencyMetrics.fillerRatio (calculateFluency [] audioResult prosody durationMs) = 0 ∧
    (calculateFluency [] audioResult prosody durationMs).fillerCount = 0 ∧
    (calculateFluency [] audioResult prosody durationMs).repetitionCount = 0 ∧
    (calculateFluency words audioResult prosody 0).wordsPerMinute = 0 := by
  refine ⟨?_, ?_, ?_, ?_⟩ <;> simp [calculateFluency]

/-- Claim C7: recognition error events with code no-speech or aborted are
never surfaced (the state is untouched and no callback message is
produced), while every other code is surfaced through the callback with
the error recorded, and the analyzing flag is left unchanged. -/
theorem handleRecognitionError_spec (state : RecognitionState)
    (event : RecognitionErrorEvent) :
    ((event.error = "no-speech" ∨ event.error = "aborted") →
      handleRecognitionError state event = (state, none)) ∧
    (event.error ≠ "no-speech" → event.error ≠ "aborted" →
      handleRecognitionError state event =
        ({ state with error := some ("Speech recognition error: " ++ event.error) },
          some ("Speech recognition error: " ++ event.error)) ∧
      (handleRecognitionError state event).1.isAnalyzing = state.isAnalyzing) := by
  constructor
  · intro h
    rw [handleRecognitionError, if_neg]
    rcases h with h | h <;> simp [h]
  · intro h1 h2
    rw [handleRecognitionError, if_pos ⟨h1, h2⟩]
    exact ⟨rfl, rfl⟩

/-- Witness for C7 at the benign code no-speech and the surfaced code
network. -/
theorem handleRecognitionError_spec_witness :
    handleRecognitionError ⟨true, none⟩ ⟨"no-speech"⟩ = (⟨true, none⟩, none) ∧
    handleRecognitionError ⟨true, none⟩ ⟨"network"⟩ =
      (⟨true, some ("Speech recognition error: " ++ "network")⟩,
        some ("Speech recognition error: " ++ "network")) :=
  ⟨(handleRecognitionError_spec ⟨true, none⟩ ⟨"no-speech"⟩).1 (Or.inl rfl),
   ((handleRecognitionError_spec ⟨true, none⟩ ⟨"network"⟩).2 (by decide) (by decide)).1⟩

/-- Claim C2: when the best-available transcript at stop (the trimmed
accumulated final text, falling back to the trimmed interim text) is
empty, stop returns none instead of a zero-filled result, for every audio
analysis regardless of how many frames were captured. -/
theorem stop_empty_transcript_returns_none (sqrtFn : ℚ → ℚ)
    (audioAnalysis : AudioAnalysisResult) (finalTranscript interimTranscript : String)
    (getWordConfidences : String → List WordConfidence) (durationMs : ℚ)
    (hf : jsTrim finalTranscript = "") (hi : jsTrim interimTranscript = "") :
    stop sqrtFn audioAnalysis finalTranscript interimTranscript getWordConfidences
      durationMs = none := by
  simp [stop, hf, hi]

/-- Witness for C2 on a whitespace-only final transcript, an empty interim
transcript, and a recording that did capture a frame. -/
theorem stop_empty_transcript_returns_none_witness :
    stop sqZero (mkAudioResult [nsFrame 0]) "   " "" gwcEmpty 0 = none :=
  stop_empty_transcript_returns_none sqZero (mkAudioResult [nsFrame 0]) "   " ""
    gwcEmpty 0 (by decide) (by decide)

/-- Claim C1: whenever stop completes with a result, the returned
overallClarityScore is the rounding of 0.4 times the average word
confidence plus 0.3 times the overall fluency score plus 0.15 times the
pitch variation plus 0.15 times the rhythm consistency of that same
result. -/
theorem stop_clarity_formula (sqrtFn : ℚ → ℚ) (audioAnalysis : AudioAnalysisResult)
    (finalTranscript interimTranscript : String)
    (getWordConfidences : String → List WordConfidence) (durationMs : ℚ)
    (r : SpeechAnalysisResult)
    (h : stop sqrtFn audioAnalysis finalTranscript interimTranscript getWordConfidences
      durationMs = some r) :
    r.overallClarityScore =
      round ((0.4 : ℚ) * avgConfidence r.wordConfidences
        + 0.3 * r.fluencyMetrics.overallFluencyScore
        + 0.15 * r.prosodyMetrics.pitchVariation
        + 0.15 * r.prosodyMetrics.rhythmConsistency) := by
  simp only [stop] at h
  split at h
  · injection h with h
    subst h
    ring_nf
  · split at h
    · exact absurd h (by simp)
    · injection h with h
      subst h
      ring_nf

/-- Witness for C1 on a one-word transcript over an empty recording. -/
theorem stop_clarity_formula_witness :
    ((stop sqZero createEmptyAudioResult "hello" "" gwcEx 60000).getD
        createEmptySpeechAnalysisResult).overallClarityScore =
      round ((0.4 : ℚ) * avgConfidence ((stop sqZero createEmptyAudioResult "hello" ""
          gwcEx 60000).getD createEmptySpeechAnalysisResult).wordConfidences
        + 0.3 * ((stop sqZero createEmptyAudioResult "hello" "" gwcEx 60000).getD
            createEmptySpeechAnalysisResult).fluencyMetrics.overallFluencyScore
        + 0.15 * ((stop sqZero createEmptyAudioResult "hello" "" gwcEx 60000).getD
            createEmptySpeechAnalysisResult).prosodyMetrics.pitchVariation
        + 0.15 * ((stop sqZero createEmptyAudioResult "hello" "" gwcEx 60000).getD
            createEmptySpeechAnalysisResult).prosodyMetrics.rhythmConsistency) :=
  stop_clarity_formula sqZero createEmptyAudioResult "hello" "" gwcEx 60000
    ((stop sqZero createEmptyAudioResult "hello" "" gwcEx 60000).getD
      createEmptySpeechAnalysisResult) (by rfl)

/-! Lemmas tracing the pause-detection scan through a single silent run. -/

lemma foldl_pauseStep_of_nonsilent (l : List Frame) : ∀ ps : List Pause,
    (∀ f ∈ l, f.isSilent = false) → l.foldl pauseStep (ps, none) = (ps, none) := by
  induction l with
  | nil => intro ps _; rfl
  | cons a t ih =>
    intro ps h
    have ha : a.isSilent = false := h a (List.mem_cons_self a t)
    have hstep : pauseStep (ps, none) a = (ps, none) := by
      simp [pauseStep, ha]
    rw [List.foldl_cons, hstep]
    exact ih ps (fun f hf => h f (List.mem_cons_of_mem a hf))

lemma foldl_pauseStep_of_silent (l : List Frame) : ∀ (ps : List Pause) (s : ℚ),
    (∀ f ∈ l, f.isSilent = true) → l.foldl pauseStep (ps, some s) = (ps, some s) := by
  induction l with
  | nil => intro ps s _; rfl
  | cons a t ih =>
    intro ps s h
    have ha : a.isSilent = true := h a (List.mem_cons_self a t)
    have hstep : pauseStep (ps, some s) a = (ps, some s) := by
      simp [pauseStep, ha]
    rw [List.foldl_cons, hstep]
    exact ih ps s (fun f hf => h f (List.mem_cons_of_mem a hf))

lemma foldl_pauseStep_pre_run (pre : List Frame) (m0 : Frame) (mid : List Frame)
    (hpre : ∀ f ∈ pre, f.isSilent = false) (hm0 : m0.isSilent = true)
    (hmid : ∀ f ∈ mid, f.isSilent = true) :
    (pre ++ m0 :: mid).foldl pauseStep ([], none) = ([], some m0.timestamp) := by
  rw [List.foldl_append, foldl_pauseStep_of_nonsilent pre [] hpre, List.foldl_cons]
  have hstep : pauseStep ([], none) m0 = ([], some m0.timestamp) := by
    simp [pauseStep, hm0]
  rw [hstep]
  exact foldl_pauseStep_of_silent mid [] m0.timestamp hmid

lemma detectPauses_single_interior_run (pre : List Frame) (m0 : Frame) (mid : List Frame)
    (f : Frame) (post : List Frame)
    (hpre : ∀ g ∈ pre, g.isSilent = false) (hm0 : m0.isSilent = true)
    (hmid : ∀ g ∈ mid, g.isSilent = true) (hf : f.isSilent = false)
    (hpost : ∀ g ∈ post, g.isSilent = false) :
    detectPauses ((pre ++ m0 :: mid) ++ f :: post) =
      if PAUSE_THRESHOLD_MS ≤ f.timestamp - m0.timestamp then
        [⟨m0.timestamp, f.timestamp, f.timestamp - m0.timestamp⟩]
      else [] := by
  have hstep : pauseStep ([], some m0.timestamp) f =
      (if PAUSE_THRESHOLD_MS ≤ f.timestamp - m0.timestamp then
        [⟨m0.timestamp, f.timestamp, f.timestamp - m0.timestamp⟩]
      else [], none) := by
    simp [pauseStep, hf]
  have hscan : pauseScan ((pre ++ m0 :: mid) ++ f :: post) =
      (if PAUSE_THRESHOLD_MS ≤ f.timestamp - m0.timestamp then
        [⟨m0.timestamp, f.timestamp, f.timestamp - m0.timestamp⟩]
      else [], none) := by
    rw [pauseScan, List.foldl_append,
      foldl_pauseStep_pre_run pre m0 mid hpre hm0 hmid, List.foldl_cons, hstep]
    exact foldl_pauseStep_of_nonsilent post _ hpost
  rw [detectPauses]
  rw [hscan]

lemma detectPauses_trailing_run (pre : List Frame) (m0 : Frame) (mid : List Frame)
    (last : Frame)
    (hpre : ∀ g ∈ pre, g.isSilent = false) (hm0 : m0.isSilent = true)
    (hmid : ∀ g ∈ mid, g.isSilent = true)
    (hlast : (m0 :: mid).getLast? = some last) :
    detectPauses (pre ++ m0 :: mid) =
      if PAUSE_THRESHOLD_MS ≤ last.timestamp - m0.timestamp then
        [⟨m0.timestamp, last.timestamp, last.timestamp - m0.timestamp⟩]
      else [] := by
  have hscan : pauseScan (pre ++ m0 :: mid) = ([], some m0.timestamp) := by
    rw [pauseScan]
    exact foldl_pauseStep_pre_run pre m0 mid hpre hm0 hmid
  have hlast2 : (pre ++ m0 :: mid).getLast? = some last := by
    rw [List.getLast?_append_cons]
    exact hlast
  rw [detectPauses]
  rw [hscan, hlast2]
  rfl

/-- Claim C3: inside analyzeProsody, a silent run among otherwise
non-silent frames counts as a pause exactly when the measured duration
(from the first silent frame to the next non-silent frame) is at least
500 ms, and additionally as a long pause exactly when it is at least
1500 ms; in particular a run measuring exactly 1600 ms yields pauseCount 1
and longPauseCount 1. -/
theorem analyzeProsody_pause_rule (sqrtFn : ℚ → ℚ) (a : AudioAnalysisResult)
    (pre : List Frame) (m0 : Frame) (mid : List Frame) (f : Frame) (post : List Frame)
    (hframes : a.frames = (pre ++ m0 :: mid) ++ f :: post)
    (hpre : ∀ g ∈ pre, g.isSilent = false) (hm0 : m0.isSilent = true)
    (hmid : ∀ g ∈ mid, g.isSilent = true) (hf : f.isSilent = false)
    (hpost : ∀ g ∈ post, g.isSilent = false) :
    ((analyzeProsody sqrtFn a).pauseCount =
      if PAUSE_THRESHOLD_MS ≤ f.timestamp - m0.timestamp then 1 else 0) ∧
    ((analyzeProsody sqrtFn a).longPauseCount =
      if LONG_PAUSE_THRESHOLD_MS ≤ f.timestamp - m0.timestamp then 1 else 0) ∧
    (f.timestamp - m0.timestamp = 1600 →
      (analyzeProsody sqrtFn a).pauseCount = 1 ∧
      (analyzeProsody sqrtFn a).longPauseCount = 1) := by
  have hne : a.frames.length ≠ 0 := by
    rw [hframes]
    simp
  have hdp := detectPauses_single_interior_run pre m0 mid f post hpre hm0 hmid hf hpost
  have hp : (analyzeProsody sqrtFn a).pauseCount =
      if PAUSE_THRESHOLD_MS ≤ f.timestamp - m0.timestamp then 1 else 0 := by
    rw [analyzeProsody_pauseCount sqrtFn a hne, hframes, hdp]
    split <;> rfl
  have hl : (analyzeProsody sqrtFn a).longPauseCount =
      if LONG_PAUSE_THRESHOLD_MS ≤ f.timestamp - m0.timestamp then 1 else 0 := by
    rw [analyzeProsody_longPauseCount sqrtFn a hne, hframes, hdp]
    by_cases h5 : PAUSE_THRESHOLD_MS ≤ f.timestamp - m0.timestamp
    · rw [if_pos h5]
      by_cases h15 : LONG_PAUSE_THRESHOLD_MS ≤ f.timestamp - m0.timestamp
      · rw [if_pos h15]
        simp [List.filter, h15]
      · rw [if_neg h15]
        simp [List.filter, h15]
    · rw [if_neg h5, if_neg]
      · rfl
      · intro h15
        apply h5
        have : PAUSE_THRESHOLD_MS ≤ LONG_PAUSE_THRESHOLD_MS := by
          rw [PAUSE_THRESHOLD_MS, LONG_PAUSE_THRESHOLD_MS]
          norm_num
        linarith
  refine ⟨hp, hl, ?_⟩
  intro h16
  constructor
  · rw [hp, if_pos]
    rw [h16, PAUSE_THRESHOLD_MS]
    norm_num
  · rw [hl, if_pos]
    rw [h16, LONG_PAUSE_THRESHOLD_MS]
    norm_num

/-- Witness for C3: one silent frame measured as a 1600 ms run between
non-silent frames. -/
theorem analyzeProsody_pause_rule_witness :
    (analyzeProsody sqZero (mkAudioResult [nsFrame 0, silFrame 100, nsFrame 1700])).pauseCount = 1 ∧
    (analyzeProsody sqZero (mkAudioResult [nsFrame 0, silFrame 100, nsFrame 1700])).longPauseCount = 1 :=
  (analyzeProsody_pause_rule sqZero (mkAudioResult [nsFrame 0, silFrame 100, nsFrame 1700])
      [nsFrame 0] (silFrame 100) [] (nsFrame 1700) [] rfl (by decide) (by decide)
      (by decide) (by decide) (by decide)).2.2
    (by norm_num [nsFrame, silFrame])

/-- Counterexample to C4 as stated: at the 100 ms cadence, an interior
silent run of 5 frames qualifies as a pause (measured 500 ms to the next
non-silent frame) while a trailing silent run of the same 5 frames does
not (measured 400 ms to the last frame). -/
theorem trailing_run_counterexample :
    (analyzeProsody sqZero (mkAudioResult c4Interior)).pauseCount = 1 ∧
    (analyzeProsody sqZero (mkAudioResult c4Trailing)).pauseCount = 0 := by
  constructor
  · norm_num [analyzeProsody, mkAudioResult, detectPauses, pauseScan, pauseStep, c4Interior,
      nsFrame, silFrame, PAUSE_THRESHOLD_MS]
  · norm_num [analyzeProsody, mkAudioResult, detectPauses, pauseScan, pauseStep, c4Trailing,
      nsFrame, silFrame, PAUSE_THRESHOLD_MS]

/-! Structure lemmas for runs of silent frames at the 100 ms cadence. -/

lemma silentRun_cons (t0 : ℚ) (k : ℕ) :
    silentRun t0 (k + 1) =
      silFrame t0 :: (List.range k).map (fun (j : ℕ) => silFrame (t0 + 100 * ((j : ℚ) + 1))) := by
  rw [silentRun, List.range_succ_eq_map, List.map_cons, List.map_map]
  congr 1
  · norm_num
  · apply List.map_congr_left
    intro j _
    simp only [Function.comp]
    push_cast
    ring_nf

lemma silentRun_all_silent (t0 : ℚ) (k : ℕ) : ∀ g ∈ silentRun t0 k, g.isSilent = true := by
  intro g hg
  rw [silentRun] at hg
  obtain ⟨j, _, rfl⟩ := List.mem_map.1 hg
  rfl

lemma silentRun_getLast (t0 : ℚ) (k : ℕ) :
    (silentRun t0 (k + 1)).getLast? = some (silFrame (t0 + 100 * (k : ℚ))) := by
  rw [silentRun, List.range_succ, List.map_append]
  simp

/-- Claim C4 (amended): a trailing silent run is evaluated by the same
500 ms threshold as an interior run, but its duration is measured only to
the timestamp of the last frame instead of to a following frame; at the
100 ms cadence an interior run of k silent frames measures 100 k ms and
qualifies exactly when 5 is at most k, while a trailing run of the same k
silent frames measures 100 (k - 1) ms and qualifies exactly when 6 is at
most k. -/
theorem trailing_vs_interior_pause_rule (sqrtFn : ℚ → ℚ) (k : ℕ) (hk : 1 ≤ k) :
    ((analyzeProsody sqrtFn (mkAudioResult
        (([nsFrame 0] ++ silentRun 100 k) ++ [nsFrame (100 * ((k : ℚ) + 1))]))).pauseCount
      = if 5 ≤ k then 1 else 0) ∧
    ((analyzeProsody sqrtFn (mkAudioResult ([nsFrame 0] ++ silentRun 100 k))).pauseCount
      = if 6 ≤ k then 1 else 0) := by
  obtain ⟨m, rfl⟩ : ∃ m, k = m + 1 := ⟨k - 1, by omega⟩
  have hpre : ∀ g ∈ [nsFrame 0], g.isSilent = false := by decide
  have hm0 : (silFrame 100).isSilent = true := rfl
  have hmid : ∀ g ∈ (List.range m).map (fun (j : ℕ) => silFrame ((100 : ℚ) + 100 * ((j : ℚ) + 1))),
      g.isSilent = true := by
    intro g hg
    obtain ⟨j, _, rfl⟩ := List.mem_map.1 hg
    rfl
  constructor
  · have hne : (mkAudioResult (([nsFrame 0] ++ silentRun 100 (m + 1))
        ++ [nsFrame (100 * (((m + 1 : ℕ) : ℚ) + 1))])).frames.length ≠ 0 := by
      simp [mkAudioResult]
    rw [analyzeProsody_pauseCount sqrtFn _ hne]
    have hfr : (mkAudioResult (([nsFrame 0] ++ silentRun 100 (m + 1))
        ++ [nsFrame (100 * (((m + 1 : ℕ) : ℚ) + 1))])).frames
        = ([nsFrame 0] ++ silFrame 100 ::
            (List.range m).map (fun (j : ℕ) => silFrame ((100 : ℚ) + 100 * ((j : ℚ) + 1))))
          ++ nsFrame (100 * (((m + 1 : ℕ) : ℚ) + 1)) :: [] := by
      rw [show (mkAudioResult (([nsFrame 0] ++ silentRun 100 (m + 1))
        ++ [nsFrame (100 * (((m + 1 : ℕ) : ℚ) + 1))])).frames
        = ([nsFrame 0] ++ silentRun 100 (m + 1))
          ++ [nsFrame (100 * (((m + 1 : ℕ) : ℚ) + 1))] from rfl]
      rw [silentRun_cons]
    rw [hfr, detectPauses_single_interior_run [nsFrame 0] (silFrame 100) _ _ []
      hpre hm0 hmid rfl (by decide)]
    have hts : (nsFrame (100 * (((m + 1 : ℕ) : ℚ) + 1))).timestamp
        - (silFrame 100).timestamp = 100 * ((m : ℚ) + 1) := by
      rw [nsFrame, silFrame]
      push_cast
      ring
    rw [hts]
    by_cases h5 : 5 ≤ m + 1
    · rw [if_pos h5, if_pos]
      · rfl
      · have : (4 : ℚ) ≤ (m : ℚ) := by exact_mod_cast Nat.le_of_succ_le_succ h5
        rw [PAUSE_THRESHOLD_MS]
        linarith
    · rw [if_neg h5, if_neg]
      · rfl
      · have : (m : ℚ) ≤ 3 := by
          have hm3 : m ≤ 3 := by omega
          exact_mod_cast hm3
        rw [PAUSE_THRESHOLD_MS]
        intro hcon
        linarith
  · have hne : (mkAudioResult ([nsFrame 0] ++ silentRun 100 (m + 1))).frames.length ≠ 0 := by
      simp [mkAudioResult]
    rw [analyzeProsody_pauseCount sqrtFn _ hne]
    have hlast : (silFrame 100 ::
        (List.range m).map (fun (j : ℕ) => silFrame ((100 : ℚ) + 100 * ((j : ℚ) + 1)))).getLast?
        = some (silFrame (100 + 100 * (m : ℚ))) := by
      rw [← silentRun_cons]
      exact silentRun_getLast 100 m
    have hfr : (mkAudioResult ([nsFrame 0] ++ silentRun 100 (m + 1))).frames
        = [nsFrame 0] ++ silFrame 100 ::
            (List.range m).map (fun (j : ℕ) => silFrame ((100 : ℚ) + 100 * ((j : ℚ) + 1))) := by
      rw [show (mkAudioResult ([nsFrame 0] ++ silentRun 100 (m + 1))).frames
        = [nsFrame 0] ++ silentRun 100 (m + 1) from rfl]
      rw [silentRun_cons]
    rw [hfr, detectPauses_trailing_run [nsFrame 0] (silFrame 100) _ _ hpre hm0 hmid hlast]
    have hts : (silFrame (100 + 100 * (m : ℚ))).timestamp - (silFrame 100).timestamp
        = 100 * (m : ℚ) := by
      rw [silFrame, silFrame]
      ring_nf
    rw [hts]
    by_cases h6 : 6 ≤ m + 1
    · rw [if_pos h6, if_pos]
      · rfl
      · have : (5 : ℚ) ≤ (m : ℚ) := by exact_mod_cast Nat.le_of_succ_le_succ h6
        rw [PAUSE_THRESHOLD_MS]
        linarith
    · rw [if_neg h6, if_neg]
      · rfl
      · have : (m : ℚ) ≤ 4 := by
          have hm4 : m ≤ 4 := by omega
          exact_mod_cast hm4
        rw [PAUSE_THRESHOLD_MS]
        intro hcon
        linarith

/-- Witness for the amended C4 at k equal to 5: the interior run is a
pause, the trailing run of the same frame count is not. -/
theorem trailing_vs_interior_pause_rule_witness :
    ((analyzeProsody sqZero (mkAudioResult
        (([nsFrame 0] ++ silentRun 100 5) ++ [nsFrame (100 * (((5 : ℕ) : ℚ) + 1))]))).pauseCount
      = 1) ∧
    ((analyzeProsody sqZero (mkAudioResult ([nsFrame 0] ++ silentRun 100 5))).pauseCount
      = 0) := by
  have h := trailing_vs_interior_pause_rule sqZero 5 (by norm_num)
  simpa using h

/-- Claim C5, evaluated at the failing input: analyzeProsody emits an
intonation event of magnitude 200 for a window whose pitch rises from 100
to 300, so the magnitude leaves the declared 0 to 100 range (the source
clamps every other reported score with a minimum against 100 but omits the
clamp on this one). -/
theorem intonation_magnitude_exceeds_declared_range :
    (analyzeProsody sqZero (mkAudioResult c5Frames)).intonationPatterns
      = [{ timestamp := 500, type := IntonationType.rising, magnitude := 200 }] ∧
    ¬(∀ e ∈ (analyzeProsody sqZero (mkAudioResult c5Frames)).intonationPatterns,
        e.magnitude ≤ 100) := by
  have h : (analyzeProsody sqZero (mkAudioResult c5Frames)).intonationPatterns
      = [{ timestamp := 500, type := IntonationType.rising, magnitude := 200 }] := by
    norm_num [analyzeProsody, mkAudioResult, c5Frames, intonationEvents, intonationIndices,
      intonationEventAt, List.range_succ, List.filter, List.filterMap, List.getLast]
  refine ⟨h, ?_⟩
  intro hall
  have hmem : ({ timestamp := 500, type := IntonationType.rising, magnitude := 200 } :
      IntonationEvent) ∈ (analyzeProsody sqZero (mkAudioResult c5Frames)).intonationPatterns := by
    rw [h]
    exact List.mem_singleton.2 rfl
  have hle := hall _ hmem
  norm_num at hle

/-! Lemmas about the intonation loop indices. -/

lemma intonationIndices_succ (n : ℕ) :
    intonationIndices (n + 1) =
      intonationIndices n ++ if n % 5 = 0 ∧ 5 ≤ n then [n] else [] := by
  rw [intonationIndices, intonationIndices, List.range_succ, List.filter_append]
  congr 1
  by_cases h : n % 5 = 0 ∧ 5 ≤ n <;> simp [h]

lemma intonationIndices_length_le (n : ℕ) :
    (intonationIndices n).length ≤ (n - 1) / 5 := by
  induction n with
  | zero => simp [intonationIndices]
  | succ m ih =>
    rw [intonationIndices_succ, List.length_append]
    by_cases h : m % 5 = 0 ∧ 5 ≤ m
    · rw [if_pos h]
      simp only [List.length_singleton]
      omega
    · rw [if_neg h]
      simp only [List.length_nil]
      omega

lemma mem_intonationIndices (n i : ℕ) :
    i ∈ intonationIndices n ↔ i < n ∧ i % 5 = 0 ∧ 5 ≤ i := by
  rw [intonationIndices]
  simp [List.mem_filter, List.mem_range]

lemma intonationEventAt_timestamp (frames : List Frame) (i : ℕ) (e : IntonationEvent)
    (h : intonationEventAt frames i = some e) (hi : i < frames.length) :
    e.timestamp = (frames.get ⟨i, hi⟩).timestamp := by
  rw [intonationEventAt] at h
  rcases hh : (frames.drop i).head? with _ | fi
  · rw [hh] at h
    exact absurd h (by simp)
  · rw [hh] at h
    have hfi : fi = frames.get ⟨i, hi⟩ := by
      rw [List.head?_drop, List.getElem?_eq_getElem hi] at hh
      rw [List.get_eq_getElem]
      exact (Option.some.inj hh).symm
    rcases hw : ((frames.drop (i - 5)).take 5).filter (fun f => !f.isSilent) with
      _ | ⟨w0, _ | ⟨w1, _ | ⟨w2, ws⟩⟩⟩ <;> rw [hw] at h
    · exact absurd h (by simp)
    · exact absurd h (by simp)
    · exact absurd h (by simp)
    · rw [← hfi]
      exact (congrArg IntonationEvent.timestamp (Option.some.inj h)).symm

/-- Claim C9: analyzeProsody classifies an intonation window only when a
frame follows it: the number of intonation events is at most the floor of
(number of frames minus one) divided by 5; a recording of 5 or fewer
frames yields no intonation events; and every emitted event carries the
timestamp of the frame at a 5-aligned index at least 5, the first frame
after its window. -/
theorem analyzeProsody_intonation_window_shape (sqrtFn : ℚ → ℚ)
    (a : AudioAnalysisResult) :
    ((analyzeProsody sqrtFn a).intonationPatterns).length ≤ (a.frames.length - 1) / 5 ∧
    (a.frames.length ≤ 5 → (analyzeProsody sqrtFn a).intonationPatterns = []) ∧
    (∀ e ∈ (analyzeProsody sqrtFn a).intonationPatterns,
      ∃ i, ∃ hi : i < a.frames.length, 5 ≤ i ∧ i % 5 = 0 ∧
        e.timestamp = (a.frames.get ⟨i, hi⟩).timestamp) := by
  by_cases h0 : a.frames.length = 0
  · rw [analyzeProsody, if_pos h0]
    simp [createEmptyProsodyMetrics]
  · rw [analyzeProsody_intonationPatterns sqrtFn a h0]
    have hlen : (intonationEvents a.frames).length ≤ (a.frames.length - 1) / 5 := by
      rw [intonationEvents]
      exact le_trans (List.length_filterMap_le _ _) (intonationIndices_length_le _)
    refine ⟨hlen, ?_, ?_⟩
    · intro h5
      have : (intonationEvents a.frames).length = 0 := by omega
      exact List.length_eq_zero.mp this
    · intro e he
      rw [intonationEvents] at he
      obtain ⟨i, hmem, hsome⟩ := List.mem_filterMap.mp he
      obtain ⟨hlt, hmod, h5i⟩ := (mem_intonationIndices _ _).mp hmem
      exact ⟨i, hlt, h5i, hmod, intonationEventAt_timestamp a.frames i e hsome hlt⟩

/-- Witness for C9 on a six-frame recording with one intonation window. -/
theorem analyzeProsody_intonation_window_shape_witness :
    ((analyzeProsody sqZero (mkAudioResult c5Frames)).intonationPatterns).length ≤
      ((mkAudioResult c5Frames).frames.length - 1) / 5 ∧
    ((mkAudioResult c5Frames).frames.length ≤ 5 →
      (analyzeProsody sqZero (mkAudioResult c5Frames)).intonationPatterns = []) ∧
    (∀ e ∈ (analyzeProsody sqZero (mkAudioResult c5Frames)).intonationPatterns,
      ∃ i, ∃ hi : i < (mkAudioResult c5Frames).frames.length, 5 ≤ i ∧ i % 5 = 0 ∧
        e.timestamp = ((mkAudioResult c5Frames).frames.get ⟨i, hi⟩).timestamp) :=
  analyzeProsody_intonation_window_shape sqZero (mkAudioResult c5Frames)

/-! Lemmas for the monotonicity of the overall fluency score in the filler
ratio. -/

lemma clamp100_le_and_lt {a b : ℚ} (ha : a ≤ 100) (hb : b ≤ 100) (hba : b < a) :
    max 0 (min 100 b) ≤ max 0 (min 100 a) ∧
    (0 < max 0 (min 100 a) → max 0 (min 100 b) < max 0 (min 100 a)) := by
  rw [min_eq_right ha, min_eq_right hb]
  constructor
  · exact max_le_max le_rfl hba.le
  · intro h
    have ha0 : 0 < a := by
      rcases lt_max_iff.mp h with h0 | h0
      · exact absurd h0 (lt_irrefl 0)
      · exact h0
    rw [max_eq_right ha0.le]
    exact max_lt ha0 hba

lemma overallFluencyScoreOf_filler_anti (wpm : ℤ) (lp : ℕ) (ssr : ℚ)
    (fr1 fr2 h1 h2 : ℚ)
    (hw : 0 ≤ wpm) (hfr1 : 0 ≤ fr1) (hfr : fr1 < fr2) (hh : h2 ≤ h1) (hh1 : h1 ≤ 100) :
    overallFluencyScoreOf wpm fr2 lp ssr h2 ≤ overallFluencyScoreOf wpm fr1 lp ssr h1 ∧
    (0 < overallFluencyScoreOf wpm fr1 lp ssr h1 →
      overallFluencyScoreOf wpm fr2 lp ssr h2 < overallFluencyScoreOf wpm fr1 lp ssr h1) := by
  have hwq : (0 : ℚ) ≤ (wpm : ℚ) := by exact_mod_cast hw
  have hlpq : (0 : ℚ) ≤ (lp : ℚ) := Nat.cast_nonneg lp
  have hfr2 : (0 : ℚ) ≤ fr2 := le_of_lt (lt_of_le_of_lt hfr1 hfr)
  simp only [overallFluencyScoreOf]
  split_ifs
  all_goals refine clamp100_le_and_lt ?_ ?_ ?_
  all_goals try have hq1 : ((wpm : ℚ)) < 100 := by exact_mod_cast ‹wpm < 100›
  all_goals try have hq2 : (200 : ℚ) < (wpm : ℚ) := by exact_mod_cast ‹(200 : ℤ) < wpm›
  all_goals linarith

/-- Claim C6 (amended): holding the word count, repetition flags, pause
counts, duration and silence ratio fixed, flagging strictly more words as
fillers never increases overallFluencyScore, and strictly decreases it
whenever the score with fewer fillers is positive; when both scores are
clamped to 0 the decrease is not strict. -/
theorem calculateFluency_filler_monotonicity (w1 w2 : List WordConfidence)
    (audioResult : AudioAnalysisResult) (prosody : ProsodyMetrics) (durationMs : ℚ)
    (hlen : w1.length = w2.length)
    (hrep : (w1.filter (fun w => w.isRepeat)).length
      = (w2.filter (fun w => w.isRepeat)).length)
    (hfil : (w1.filter (fun w => w.isFiller)).length
      < (w2.filter (fun w => w.isFiller)).length) :
    (calculateFluency w2 audioResult prosody durationMs).overallFluencyScore ≤
      (calculateFluency w1 audioResult prosody durationMs).overallFluencyScore ∧
    (0 < (calculateFluency w1 audioResult prosody durationMs).overallFluencyScore →
      (calculateFluency w2 audioResult prosody durationMs).overallFluencyScore <
        (calculateFluency w1 audioResult prosody durationMs).overallFluencyScore) := by
  have hT : 0 < w1.length := by
    have h2 : (w2.filter (fun w => w.isFiller)).length ≤ w2.length :=
      List.length_filter_le _ _
    omega
  have hTQ : (0 : ℚ) < (w1.length : ℚ) := by exact_mod_cast hT
  have e1 : (calculateFluency w1 audioResult prosody durationMs).overallFluencyScore
      = overallFluencyScoreOf
          (if 0 < durationMs / 60000 then
            round ((w1.length : ℚ) / (durationMs / 60000)) else 0)
          (if 0 < w1.length then
            (((w1.filter (fun w => w.isFiller)).length : ℚ) / (w1.length : ℚ)) else 0)
          prosody.longPauseCount
          (1 - AudioAnalysisResult.silenceRatio audioResult)
          (max 0 (min 100 (100 - (prosody.pauseCount : ℚ) * 5
            - ((w1.filter (fun w => w.isFiller)).length : ℚ) * 3
            - ((w1.filter (fun w => w.isRepeat)).length : ℚ) * 4
            - (prosody.longPauseCount : ℚ) * 8))) := rfl
  have e2 : (calculateFluency w2 audioResult prosody durationMs).overallFluencyScore
      = overallFluencyScoreOf
          (if 0 < durationMs / 60000 then
            round ((w2.length : ℚ) / (durationMs / 60000)) else 0)
          (if 0 < w2.length then
            (((w2.filter (fun w => w.isFiller)).length : ℚ) / (w2.length : ℚ)) else 0)
          prosody.longPauseCount
          (1 - AudioAnalysisResult.silenceRatio audioResult)
          (max 0 (min 100 (100 - (prosody.pauseCount : ℚ) * 5
            - ((w2.filter (fun w => w.isFiller)).length : ℚ) * 3
            - ((w2.filter (fun w => w.isRepeat)).length : ℚ) * 4
            - (prosody.longPauseCount : ℚ) * 8))) := rfl
  rw [e1, e2, ← hlen, ← hrep]
  have hcc : ((w1.filter (fun w => w.isFiller)).length : ℚ)
      < ((w2.filter (fun w => w.isFiller)).length : ℚ) := by exact_mod_cast hfil
  apply overallFluencyScoreOf_filler_anti
  · split_ifs with hd
    · rw [round_eq]
      apply Int.le_floor.mpr
      have hx : (0 : ℚ) ≤ (w1.length : ℚ) / (durationMs / 60000) :=
        div_nonneg (Nat.cast_nonneg _) (le_of_lt hd)
      push_cast
      linarith
    · exact le_refl 0
  · rw [if_pos hT]
    positivity
  · rw [if_pos hT, if_pos hT]
    exact (div_lt_div_iff_of_pos_right hTQ).mpr hcc
  · refine max_le_max le_rfl (min_le_min le_rfl ?_)
    linarith
  · exact max_le (by norm_num) (min_le_left _ _)

/-- Witness for the amended C6: one clean word against one filler word at
the same length, where the cleaner score is positive and the decrease is
strict. -/
theorem calculateFluency_filler_monotonicity_witness :
    (calculateFluency [mkWord true] createEmptyAudioResult createEmptyProsodyMetrics
        1000).overallFluencyScore <
      (calculateFluency [mkWord false] createEmptyAudioResult createEmptyProsodyMetrics
        1000).overallFluencyScore := by
  have h := calculateFluency_filler_monotonicity [mkWord false] [mkWord true]
    createEmptyAudioResult createEmptyProsodyMetrics 1000 rfl (by decide) (by decide)
  apply h.2
  norm_num [calculateFluency, overallFluencyScoreOf, mkWord, createEmptyAudioResult,
    createEmptyProsodyMetrics, List.filter, round_eq]

/-- Counterexample to C6 as stated: with 20 long pauses the running score
is clamped to 0 on both sides, so raising the filler ratio from one half
to one leaves overallFluencyScore unchanged instead of strictly
decreasing it. -/
theorem calculateFluency_filler_strictness_counterexample :
    cw1.length = cw2.length ∧
    (cw1.filter (fun w => w.isRepeat)).length = (cw2.filter (fun w => w.isRepeat)).length ∧
    (cw1.filter (fun w => w.isFiller)).length < (cw2.filter (fun w => w.isFiller)).length ∧
    ¬((calculateFluency cw2 createEmptyAudioResult prosody20 1000).overallFluencyScore <
      (calculateFluency cw1 createEmptyAudioResult prosody20 1000).overallFluencyScore) := by
  have hs1 : (calculateFluency cw1 createEmptyAudioResult prosody20
      1000).overallFluencyScore = 0 := by
    norm_num [calculateFluency, overallFluencyScoreOf, cw1, mkWord, createEmptyAudioResult,
      prosody20, List.filter, round_eq]
  have hs2 : (calculateFluency cw2 createEmptyAudioResult prosody20
      1000).overallFluencyScore = 0 := by
    norm_num [calculateFluency, overallFluencyScoreOf, cw2, mkWord, createEmptyAudioResult,
      prosody20, List.filter, round_eq]
  refine ⟨rfl, by decide, by decide, ?_⟩
  rw [hs1, hs2]
  exact lt_irrefl 0

end Speech
